import Mathlib

/-!
Verification of the Codediff backend's diff-runner against its specification.

The development shallowly embeds the judging/diff pipeline of
`app/routes/diff.py`, the SSE serializer of `app/utils/sse.py`, the
`_run_command` accounting of `app/utils/sandbox.py` and the request-parameter
handling of `StartDiff.get`.  External effects (the sandboxed program runs,
the compiler invocations, and reads of the per-session stop-flag set) are
modelled as environment parameters: a `StartEnv`/`RerunEnv` records, for each
loop iteration, the outcome the sandbox would report.  A run is embedded as
its linearized trace of actions (`Act`): persistence-layer operations and
emitted stream events, in program order.
-/

namespace Codediff

/-- Python `str.rstrip` on a character list: drop trailing whitespace. -/
def rstripChars (l : List Char) : List Char :=
  (l.reverse.dropWhile Char.isWhitespace).reverse

/-- Python `str.lstrip` on a character list: drop leading whitespace. -/
def lstripChars (l : List Char) : List Char :=
  l.dropWhile Char.isWhitespace

/-- Python `s.rstrip()`. -/
def pyRstrip (s : String) : String :=
  ⟨rstripChars s.data⟩

/-- Python `s.strip()` (used by `_run_command` on captured stdout/stderr). -/
def pyStrip (s : String) : String :=
  ⟨rstripChars (lstripChars s.data)⟩

/-- Python `s.split('\n')` on a character list; always returns at least one
(possibly empty) segment, like Python. -/
def splitNl : List Char → List (List Char)
  | [] => [[]]
  | c :: rest =>
    match splitNl rest with
    | [] => [[c]]
    | h :: t => if c = '\n' then [] :: h :: t else (c :: h) :: t

/-- Python `'\n'.join(segments)` on character lists. -/
def joinNl : List (List Char) → List Char
  | [] => []
  | [x] => x
  | x :: xs => x ++ '\n' :: joinNl xs

/-- The output normalization of `StartDiff.diff` / `RerunDiff.rerun`
(`diff.py` lines 148-149 and 247-248):
`'\n'.join([s.rstrip() for s in output.split('\n')]).rstrip()`. -/
def normalizeOut (s : String) : String :=
  ⟨rstripChars (joinNl ((splitNl s.data).map rstripChars))⟩

/-- A persisted `TestCase` record (`app/models.py`), restricted to the fields
the diff loop reads or writes.  `time_used`/`memory_used` are nullable in the
model (`default=None`); their numeric values are opaque here. -/
structure TC where
  session_id : Nat
  status : String
  input_data : String
  user_output : String
  std_output : String
  time_used : Option Int
  memory_used : Option Int
deriving DecidableEq

/-- The result quadruple returned by `run_program` (a sandbox-layer function
whose callers are in `diff.py`): the verdict string `result['type']`, the
captured output, and the time/memory accounting. -/
structure RunResult where
  rtype : String
  output : String
  time : Int
  mem : Int
deriving DecidableEq

/-- The pair returned by `run_compiler`: the SSE event type (`'failed'` on a
compile error) and the payload message. -/
structure CompileRes where
  etype : String
  message : String
deriving DecidableEq

/-- A stream event, as emitted through `sse_response` by the diff routes. -/
inductive Event where
  | status (s : String)
  | compile (etype : String) (message : String)
  | testResult (num : Nat) (tc : TC)
  | finish
deriving DecidableEq

/-- One observable action of a run: a stop-flag clear
(`request_stop_set.discard`), the bulk delete of the session's TestCases, a
persist (`db.session.add`/`commit`) or an emitted stream event. -/
inductive Act where
  | clearStop
  | deleteAll
  | persist (tc : TC)
  | emit (e : Event)
deriving DecidableEq

/-- Environment of one `StartDiff.diff` run: compile results for the three
sources, the per-iteration sandbox outcomes of generator, user and std
programs, and whether `session_id ∈ request_stop_set` holds when iteration
`i` reaches its stop check. -/
structure StartEnv where
  cUser : CompileRes
  cStd : CompileRes
  cGen : CompileRes
  gen : Nat → RunResult
  user : Nat → RunResult
  std : Nat → RunResult
  stopHit : Nat → Bool

/-- Environment of one `RerunDiff.rerun` run. -/
structure RerunEnv where
  cUser : CompileRes
  cStd : CompileRes
  user : Nat → RunResult
  std : Nat → RunResult
  stopHit : Nat → Bool

/-- The `status` message of `diff.py` line 107 / line 231. -/
def runMsg (i total : Nat) : String :=
  "Running test " ++ toString (i + 1) ++ "/" ++ toString total

/-- The `status` message of `diff.py` line 86 / line 216. -/
def compMsg (s : String) : String :=
  "Compiling " ++ s ++ " code"

/-- The compile phase of `diff`/`rerun` (`diff.py` lines 85-97, 215-227):
for each `(name, code)` pair, emit the status event, invoke `run_compiler`
(result supplied by the environment), prefix the message with `name ++ " code: "`,
emit the result event, and stop the run when the event type is `'failed'`.
Returns the action list and whether all compiles succeeded. -/
def compileActs : List (String × CompileRes) → List Act × Bool
  | [] => ([], true)
  | (s, r) :: rest =>
    let acts := [Act.emit (Event.status (compMsg s)),
                 Act.emit (Event.compile r.etype (s ++ " code: " ++ r.message))]
    if r.etype = "failed" then (acts, false)
    else
      let p := compileActs rest
      (acts ++ p.1, p.2)

/-- One iteration body of the `start` loop (`diff.py` lines 108-158): build
the TestCase, run generator/user/std in order, record outputs and accounting,
and determine the persisted status and whether the loop `break`s.  Mirrors
the source's early exits: the std program only runs when the user program's
verdict is `OK`, etc. -/
def iterCase (env : StartEnv) (sid i : Nat) : TC × Bool :=
  if (env.gen i).rtype ≠ "OK" then
    ({ session_id := sid, status := "Generator " ++ (env.gen i).rtype,
       input_data := (env.gen i).output, user_output := "", std_output := "",
       time_used := none, memory_used := none }, true)
  else if (env.user i).rtype ≠ "OK" then
    ({ session_id := sid, status := "User " ++ (env.user i).rtype,
       input_data := (env.gen i).output, user_output := (env.user i).output,
       std_output := "", time_used := some (env.user i).time,
       memory_used := some (env.user i).mem }, true)
  else if (env.std i).rtype ≠ "OK" then
    ({ session_id := sid, status := "Std " ++ (env.std i).rtype,
       input_data := (env.gen i).output, user_output := (env.user i).output,
       std_output := (env.std i).output, time_used := some (env.user i).time,
       memory_used := some (env.user i).mem }, true)
  else if normalizeOut (env.user i).output ≠ normalizeOut (env.std i).output then
    ({ session_id := sid, status := "WA",
       input_data := (env.gen i).output, user_output := (env.user i).output,
       std_output := (env.std i).output, time_used := some (env.user i).time,
       memory_used := some (env.user i).mem }, true)
  else
    ({ session_id := sid, status := "OK",
       input_data := (env.gen i).output, user_output := (env.user i).output,
       std_output := (env.std i).output, time_used := some (env.user i).time,
       memory_used := some (env.user i).mem }, false)

/-- The deferred emission of the previous iteration's case
(`diff.py` lines 101-105 and 164-168): `num` is the loop index at the point
of emission (`i` inside the loop, `max_tests` after it). -/
def emitP : Option TC → Nat → List Act
  | none, _ => []
  | some tc, n => [Act.emit (Event.testResult n tc)]

/-- The `for i in range(max_tests)` loop of `StartDiff.diff`
(`diff.py` lines 100-169), with `rem` iterations remaining, current index
`i`, and `p` the not-yet-emitted case of the previous iteration.  On `break`
the pending case is the broken one and is emitted with `test_num = max_tests`
followed by `finish`; when the stop flag is observed after an `OK` iteration
the run emits `finish` and returns at once, skipping the pending emission. -/
def diffLoopAux (env : StartEnv) (sid N : Nat) : Nat → Nat → Option TC → List Act
  | 0, _, p => emitP p N ++ [Act.emit Event.finish]
  | rem + 1, i, p =>
    emitP p i ++
    [Act.emit (Event.status (runMsg i N)), Act.persist (iterCase env sid i).1] ++
    (if (iterCase env sid i).2 then
      [Act.emit (Event.testResult N (iterCase env sid i).1), Act.emit Event.finish]
    else if env.stopHit i then [Act.emit Event.finish]
    else diffLoopAux env sid N rem (i + 1) (some (iterCase env sid i).1))

/-- The full action trace of `StartDiff.diff(session_id, …, max_tests, …)`
(`diff.py` lines 75-169): clear the stop flag, delete the session's prior
TestCases, compile user/std/gen in order, then run the test loop. -/
def diffTrace (env : StartEnv) (sid N : Nat) : List Act :=
  let c := compileActs [("user", env.cUser), ("std", env.cStd), ("gen", env.cGen)]
  Act.clearStop :: Act.deleteAll ::
    (c.1 ++ if c.2 then diffLoopAux env sid N N 0 none else [])

/-- One iteration of the `rerun` loop over an existing case
(`diff.py` lines 232-253): the status field is assigned
`"User <kind>"`, then unconditionally reassigned `"Std <kind>"`, then
unconditionally reassigned `'WA'`/`'OK'` from the direct output comparison;
the input is reused unchanged. -/
def rerunIterCase (env : RerunEnv) (i : Nat) (tc : TC) : TC :=
  let tc1 := { tc with user_output := (env.user i).output,
                       status := "User " ++ (env.user i).rtype,
                       time_used := some (env.user i).time,
                       memory_used := some (env.user i).mem }
  let tc2 := { tc1 with std_output := (env.std i).output,
                        status := "Std " ++ (env.std i).rtype }
  if normalizeOut (env.user i).output ≠ normalizeOut (env.std i).output then
    { tc2 with status := "WA" }
  else
    { tc2 with status := "OK" }

/-- The `for i, current_testcase in enumerate(test_cases)` loop of
`RerunDiff.rerun` (`diff.py` lines 229-264): each case is mutated, persisted,
emitted with `test_num = i`, and then the stop flag is checked. -/
def rerunLoop (env : RerunEnv) (total : Nat) : Nat → List TC → List Act
  | _, [] => [Act.emit Event.finish]
  | i, tc :: rest =>
    [Act.emit (Event.status (runMsg i total)),
     Act.persist (rerunIterCase env i tc),
     Act.emit (Event.testResult i (rerunIterCase env i tc))] ++
    (if env.stopHit i then [Act.emit Event.finish]
     else rerunLoop env total (i + 1) rest)

/-- The full action trace of `RerunDiff.rerun` (`diff.py` lines 206-264):
clear the stop flag (no TestCase deletion), compile user/std, then replay
the stored cases. -/
def rerunTrace (env : RerunEnv) (cases : List TC) : List Act :=
  let c := compileActs [("user", env.cUser), ("std", env.cStd)]
  Act.clearStop ::
    (c.1 ++ if c.2 then rerunLoop env cases.length 0 cases else [])

/-- The TestCases persisted by a trace, in order. -/
def persistsOf : List Act → List TC
  | [] => []
  | Act.persist tc :: rest => tc :: persistsOf rest
  | _ :: rest => persistsOf rest

/-- The `test_result` events of a trace, in order, as `(test_num, case)`. -/
def testResultsOf : List Act → List (Nat × TC)
  | [] => []
  | Act.emit (Event.testResult n tc) :: rest => (n, tc) :: testResultsOf rest
  | _ :: rest => testResultsOf rest

/-- Checks, walking a trace left to right while accumulating the persisted
cases, that every emitted `test_result` carries a case persisted strictly
earlier in the trace. -/
def emitsAfterPersist : List TC → List Act → Bool
  | _, [] => true
  | pend, Act.persist tc :: rest => emitsAfterPersist (tc :: pend) rest
  | pend, Act.emit (Event.testResult _ tc) :: rest =>
    decide (tc ∈ pend) && emitsAfterPersist pend rest
  | pend, _ :: rest => emitsAfterPersist pend rest

/-- All sandbox verdicts of iteration `j` are OK and the normalized outputs
agree: the iteration persists an `OK` case and does not break the loop. -/
def iterOK (env : StartEnv) (j : Nat) : Prop :=
  (env.gen j).rtype = "OK" ∧ (env.user j).rtype = "OK" ∧ (env.std j).rtype = "OK" ∧
  normalizeOut (env.user j).output = normalizeOut (env.std j).output

/-- All three `run_compiler` calls of `start` succeed. -/
def compilesOK3 (env : StartEnv) : Prop :=
  env.cUser.etype ≠ "failed" ∧ env.cStd.etype ≠ "failed" ∧ env.cGen.etype ≠ "failed"

/-- The test case persisted by an all-OK iteration `j` of `start`. -/
def okCase (env : StartEnv) (sid j : Nat) : TC :=
  { session_id := sid, status := "OK", input_data := (env.gen j).output,
    user_output := (env.user j).output, std_output := (env.std j).output,
    time_used := some (env.user j).time, memory_used := some (env.user j).mem }

/-- The trace segment contributed by an all-OK iteration `j` of the `start`
loop (with the deferred test_result emission regrouped after the persist it
reports). -/
def okSeg (env : StartEnv) (sid N j : Nat) : List Act :=
  [Act.emit (Event.status (runMsg j N)), Act.persist (okCase env sid j),
   Act.emit (Event.testResult (j + 1) (okCase env sid j))]

/-- The compile-phase actions of a fully successful `start` compile phase. -/
def compileOKActs (env : StartEnv) : List Act :=
  [Act.emit (Event.status (compMsg "user")),
   Act.emit (Event.compile env.cUser.etype ("user code: " ++ env.cUser.message)),
   Act.emit (Event.status (compMsg "std")),
   Act.emit (Event.compile env.cStd.etype ("std code: " ++ env.cStd.message)),
   Act.emit (Event.status (compMsg "gen")),
   Act.emit (Event.compile env.cGen.etype ("gen code: " ++ env.cGen.message))]

/-- The compile-phase actions of a fully successful `rerun` compile phase. -/
def compileOK2Acts (env : RerunEnv) : List Act :=
  [Act.emit (Event.status (compMsg "user")),
   Act.emit (Event.compile env.cUser.etype ("user code: " ++ env.cUser.message)),
   Act.emit (Event.status (compMsg "std")),
   Act.emit (Event.compile env.cStd.etype ("std code: " ++ env.cStd.message))]

/-- The trace segment contributed by iteration `j` of the `rerun` loop on
stored case `tc`. -/
def rerunSeg (env : RerunEnv) (total j : Nat) (tc : TC) : List Act :=
  [Act.emit (Event.status (runMsg j total)), Act.persist (rerunIterCase env j tc),
   Act.emit (Event.testResult j (rerunIterCase env j tc))]

/-- The max_tests parameter handling of `StartDiff.get`
(`diff.py` lines 42-47): `int(request.args.get('max_tests', 100))`, then any
value outside `[1, 1000]` is replaced by `1000`. -/
def getMaxTests (raw : Option Int) : Int :=
  let m := raw.getD 100
  if m < 1 ∨ m > 1000 then 1000 else m

/-- Python dict assignment `d[k] = v` on an association list: replace the
value in place when the key exists, else append the new pair. -/
def pyDictSet (d : List (String × String)) (k v : String) : List (String × String) :=
  if d.any (fun kv => kv.1 = k) then
    d.map (fun kv => if kv.1 = k then (k, v) else kv)
  else d ++ [(k, v)]

/-- A JSON string literal (the payloads reaching `sse_response` in the claims
under study carry plain string values needing no escaping). -/
def jsonStr (s : String) : String := "\x22" ++ s ++ "\x22"

/-- Python `json.dumps` (default separators) restricted to string-valued
dicts, which is how this model represents event payloads. -/
def jsonDumps (d : List (String × String)) : String :=
  "\x7b" ++ String.intercalate ", " (d.map (fun kv => jsonStr kv.1 ++ ": " ++ jsonStr kv.2)) ++ "\x7d"

/-- The SSE record serializer `sse_response` of `app/utils/sse.py` lines
7-31: set `data['timestamp']` to the current UTC ISO time, build the lines
`id: …` (optional), `event: <type>`, `data: <json>` and a final empty
element, and return `'\n'.join(response)`. -/
def sse_response (event_type : String) (data : List (String × String))
    (event_id : Option String) (now : String) : String :=
  let data2 := pyDictSet data "timestamp" now
  let response :=
    (match event_id with
     | some i => ["id: " ++ i]
     | none => []) ++
    ["event: " ++ event_type, "data: " ++ jsonDumps data2, ""]
  String.intercalate "\n" response

/-- Exit condition of a child process, as read from a wait status
(`WIFEXITED` / `WIFSIGNALED` / other). -/
inductive ExitStatus where
  | exited (code : Nat)
  | signaled (sig : Nat)
  | unknown
deriving DecidableEq

def SIGKILL : Nat := 9
def SIGXCPU : Nat := 24
def SIGXFSZ : Nat := 25

/-- Modelled from the spec: `run_program`/`run_compiler` and the Sandbox
Launcher they use are absent from src/ (only their callers in
`app/routes/diff.py` and config keys exist), so the verdict-kind derivation
is taken from spec §4.2: `WIFEXITED` → OK (carrying the exit code);
`WIFSIGNALED` with SIGXCPU → TLE, SIGXFSZ → OLE, SIGKILL → KILLED, any other
signal → RE; otherwise → UKE. -/
def verdict_kind : ExitStatus → String
  | ExitStatus.exited _ => "OK"
  | ExitStatus.signaled s =>
    if s = SIGXCPU then "TLE"
    else if s = SIGXFSZ then "OLE"
    else if s = SIGKILL then "KILLED"
    else "RE"
  | ExitStatus.unknown => "UKE"

/-- Modelled from the spec: the Compiler Driver mapping of spec §4.3 (absent
from src/): an OK sandbox verdict with exit code 0 is `Compiled`, OK with
exit code 1 is a CompileError, any non-OK kind is a sandbox-class compiler
failure.  It presupposes sandbox outcomes whose verdict is OK while the exit
code is nonzero. -/
def compile_outcome (kind : String) (exit_code : Nat) : String :=
  if kind = "OK" ∧ exit_code = 0 then "Compiled"
  else if kind = "OK" ∧ exit_code = 1 then "Compile Error"
  else "Compiler " ++ kind

/-- The result dict of `FirejailSandbox._run_command`
(`app/utils/sandbox.py` lines 156-199). -/
structure CmdResult where
  stdout : String
  stderr : String
  returncode : Int
  time_cost : Rat
  memory_cost : Rat
deriving DecidableEq

/-- `FirejailSandbox._estimate_memory` (`sandbox.py` lines 201-204):
`len(result.stdout) / 1024 + len(result.stderr) / 1024`. -/
def estimate_memory (stdoutLen stderrLen : Nat) : Rat :=
  (stdoutLen : Rat) / 1024 + (stderrLen : Rat) / 1024

/-- The normal-completion branch of `_run_command` (`sandbox.py` lines
160-181): stripped stdout/stderr, the raw return code, elapsed wall time in
milliseconds capped at `max_time * 1000`, and the memory estimate capped at
`max_memory`. -/
def run_command_normal (max_time max_memory : Rat) (elapsed_start elapsed_end : Rat)
    (out err : String) (rc : Int) : CmdResult :=
  { stdout := pyStrip out, stderr := pyStrip err, returncode := rc,
    time_cost := min ((elapsed_end - elapsed_start) * 1000) (max_time * 1000),
    memory_cost := min (estimate_memory out.length err.length) max_memory }

/-- The `subprocess.TimeoutExpired` branch of `_run_command` (`sandbox.py`
lines 182-190): return code `-signal.SIGKILL`, full time budget, zero
memory. -/
def run_command_timeout (max_time : Rat) : CmdResult :=
  { stdout := "",
    stderr := "Execution timed out after " ++ toString max_time ++ " seconds",
    returncode := -(SIGKILL : Int),
    time_cost := max_time * 1000, memory_cost := 0 }

/-- The generic exception branch of `_run_command` (`sandbox.py` lines
191-199): return code -1 and zero counters. -/
def run_command_error (msg : String) : CmdResult :=
  { stdout := "", stderr := msg, returncode := -1,
    time_cost := 0, memory_cost := 0 }

/-- Modelled from the spec: the default `wcmp` checker's token view of an
output — the Checker Driver is absent from src/ — per spec §4.5/§8.1:
`wcmp` tokenizes on whitespace. -/
def splitWsAux : List Char → List (List Char)
  | [] => [[]]
  | c :: rest =>
    match splitWsAux rest with
    | [] => [[c]]
    | h :: t => if c.isWhitespace then [] :: h :: t else (c :: h) :: t

/-- Modelled from the spec: the whitespace token list `wcmp` compares. -/
def wcmpTokens (s : String) : List (List Char) :=
  (splitWsAux s.data).filter (fun w => w ≠ [])

/-- Modelled from the spec: `wcmp`'s exit code — 0 when the token sequences
agree, 1 otherwise. -/
def wcmpExit (out ans : String) : Nat :=
  if wcmpTokens out = wcmpTokens ans then 0 else 1

/-- Modelled from the spec: the Checker Driver's mapping of a checker exit
code to a testcase status (spec §4.4): exit 0 → OK, exit 1 → WA, anything
else → `Checker <kind>` where `kind` is the checker run's sandbox verdict. -/
def checker_status (exit_code : Nat) (kind : String) : String :=
  if exit_code = 0 then "OK"
  else if exit_code = 1 then "WA"
  else "Checker " ++ kind

/-- Whether a serialized record is terminated by a blank line, i.e. ends in
two consecutive newlines. -/
def endsBlankLine (s : String) : Bool :=
  match s.data.reverse with
  | '\n' :: '\n' :: _ => true
  | _ => false

/-- A successful `run_compiler` result (any event type other than
`'failed'`). -/
def crOK : CompileRes := { etype := "compiled", message := "OK" }

/-- A failing `run_compiler` result. -/
def crBad : CompileRes := { etype := "failed", message := "Compile Error" }

/-- A sandbox outcome with verdict OK. -/
def rrOK : RunResult := { rtype := "OK", output := "1\n", time := 3, mem := 4 }

/-- A start environment in which every compile and every program run
succeeds and the outputs agree. -/
def envA : StartEnv :=
  { cUser := crOK, cStd := crOK, cGen := crOK,
    gen := fun _ => { rtype := "OK", output := "5 7", time := 1, mem := 2 },
    user := fun _ => rrOK, std := fun _ => rrOK, stopHit := fun _ => false }

/-- Like `envA` but the stop flag is observed at every iteration boundary. -/
def envS : StartEnv := { envA with stopHit := fun _ => true }

/-- An all-OK environment where user and std outputs have the same
whitespace-token stream but differ as normalized text. -/
def envW : StartEnv :=
  { envA with
    user := fun _ => { rtype := "OK", output := "1 2", time := 1, mem := 1 },
    std := fun _ => { rtype := "OK", output := "1\n2", time := 1, mem := 1 } }

/-- Environments whose user / std / gen compile fails. -/
def envFU : StartEnv := { envA with cUser := crBad }

def envFS : StartEnv := { envA with cStd := crBad }

def envFG : StartEnv := { envA with cGen := crBad }

/-- A rerun environment where the user program's verdict at test 0 is RE
while outputs still agree. -/
def envR : RerunEnv :=
  { cUser := crOK, cStd := crOK,
    user := fun i => if i = 0
      then { rtype := "RE", output := "1\n", time := 5, mem := 6 }
      else { rtype := "OK", output := "1\n", time := 5, mem := 6 },
    std := fun _ => { rtype := "OK", output := "1\n", time := 2, mem := 3 },
    stopHit := fun _ => false }

/-- An all-OK rerun environment with the stop flag raised throughout. -/
def envRS : RerunEnv :=
  { envR with user := fun _ => rrOK, stopHit := fun _ => true }

/-- Two stored test cases for rerun scenarios. -/
def tcA : TC :=
  { session_id := 3, status := "WA", input_data := "in0",
    user_output := "x", std_output := "y", time_used := none, memory_used := none }

def tcB : TC :=
  { session_id := 3, status := "WA", input_data := "in1",
    user_output := "x", std_output := "y", time_used := none, memory_used := none }

end Codediff

namespace Codediff

/-! Step equations for the trace observers, and the extraction lemmas used
by the shape theorems below. -/

theorem pOf_persist (tc : TC) (rest : List Act) :
    persistsOf (Act.persist tc :: rest) = tc :: persistsOf rest := rfl

theorem pOf_clearStop (rest : List Act) :
    persistsOf (Act.clearStop :: rest) = persistsOf rest := rfl

theorem pOf_deleteAll (rest : List Act) :
    persistsOf (Act.deleteAll :: rest) = persistsOf rest := rfl

theorem pOf_emit (e : Event) (rest : List Act) :
    persistsOf (Act.emit e :: rest) = persistsOf rest := by
  cases e <;> rfl

theorem tROf_persist (tc : TC) (rest : List Act) :
    testResultsOf (Act.persist tc :: rest) = testResultsOf rest := rfl

theorem tROf_clearStop (rest : List Act) :
    testResultsOf (Act.clearStop :: rest) = testResultsOf rest := rfl

theorem tROf_deleteAll (rest : List Act) :
    testResultsOf (Act.deleteAll :: rest) = testResultsOf rest := rfl

theorem tROf_status (s : String) (rest : List Act) :
    testResultsOf (Act.emit (Event.status s) :: rest) = testResultsOf rest := rfl

theorem tROf_compile (a b : String) (rest : List Act) :
    testResultsOf (Act.emit (Event.compile a b) :: rest) = testResultsOf rest := rfl

theorem tROf_finish (rest : List Act) :
    testResultsOf (Act.emit Event.finish :: rest) = testResultsOf rest := rfl

theorem tROf_testResult (n : Nat) (tc : TC) (rest : List Act) :
    testResultsOf (Act.emit (Event.testResult n tc) :: rest) =
      (n, tc) :: testResultsOf rest := rfl

theorem persistsOf_append : ∀ l1 l2 : List Act,
    persistsOf (l1 ++ l2) = persistsOf l1 ++ persistsOf l2 := by
  intro l1
  induction l1 with
  | nil => intro l2; rfl
  | cons a t ih =>
    intro l2
    cases a with
    | persist tc =>
      rw [List.cons_append, pOf_persist, pOf_persist, ih, List.cons_append]
    | clearStop =>
      rw [List.cons_append, pOf_clearStop, pOf_clearStop]; exact ih l2
    | deleteAll =>
      rw [List.cons_append, pOf_deleteAll, pOf_deleteAll]; exact ih l2
    | emit e =>
      rw [List.cons_append, pOf_emit, pOf_emit]; exact ih l2

theorem testResultsOf_append : ∀ l1 l2 : List Act,
    testResultsOf (l1 ++ l2) = testResultsOf l1 ++ testResultsOf l2 := by
  intro l1
  induction l1 with
  | nil => intro l2; rfl
  | cons a t ih =>
    intro l2
    cases a with
    | persist tc =>
      rw [List.cons_append, tROf_persist, tROf_persist]; exact ih l2
    | clearStop =>
      rw [List.cons_append, tROf_clearStop, tROf_clearStop]; exact ih l2
    | deleteAll =>
      rw [List.cons_append, tROf_deleteAll, tROf_deleteAll]; exact ih l2
    | emit e =>
      cases e with
      | status s =>
        rw [List.cons_append, tROf_status, tROf_status]; exact ih l2
      | compile a b =>
        rw [List.cons_append, tROf_compile, tROf_compile]; exact ih l2
      | finish =>
        rw [List.cons_append, tROf_finish, tROf_finish]; exact ih l2
      | testResult n tc =>
        rw [List.cons_append, tROf_testResult, tROf_testResult, ih, List.cons_append]

theorem eap_nil (pend : List TC) : emitsAfterPersist pend [] = true := rfl

theorem eap_clearStop (pend : List TC) (rest : List Act) :
    emitsAfterPersist pend (Act.clearStop :: rest) = emitsAfterPersist pend rest := rfl

theorem eap_deleteAll (pend : List TC) (rest : List Act) :
    emitsAfterPersist pend (Act.deleteAll :: rest) = emitsAfterPersist pend rest := rfl

theorem eap_status (pend : List TC) (s : String) (rest : List Act) :
    emitsAfterPersist pend (Act.emit (Event.status s) :: rest) =
      emitsAfterPersist pend rest := rfl

theorem eap_compile (pend : List TC) (a b : String) (rest : List Act) :
    emitsAfterPersist pend (Act.emit (Event.compile a b) :: rest) =
      emitsAfterPersist pend rest := rfl

theorem eap_finish (pend : List TC) (rest : List Act) :
    emitsAfterPersist pend (Act.emit Event.finish :: rest) =
      emitsAfterPersist pend rest := rfl

theorem eap_persist (pend : List TC) (tc : TC) (rest : List Act) :
    emitsAfterPersist pend (Act.persist tc :: rest) =
      emitsAfterPersist (tc :: pend) rest := rfl

theorem eap_testResult (pend : List TC) (n : Nat) (tc : TC) (rest : List Act) :
    emitsAfterPersist pend (Act.emit (Event.testResult n tc) :: rest) =
      (decide (tc ∈ pend) && emitsAfterPersist pend rest) := rfl

theorem persistsOf_okSeg_flatMap (env : StartEnv) (sid N : Nat) :
    ∀ l : List Nat,
      persistsOf (l.flatMap (okSeg env sid N)) = l.map (okCase env sid) := by
  intro l
  induction l with
  | nil => rfl
  | cons a t ih =>
    simp only [List.flatMap_cons, persistsOf_append, ih, List.map_cons]
    rfl

theorem testResultsOf_okSeg_flatMap (env : StartEnv) (sid N : Nat) :
    ∀ l : List Nat,
      testResultsOf (l.flatMap (okSeg env sid N)) =
        l.map (fun j => (j + 1, okCase env sid j)) := by
  intro l
  induction l with
  | nil => rfl
  | cons a t ih =>
    simp only [List.flatMap_cons, testResultsOf_append, ih, List.map_cons]
    rfl

theorem iterCase_ok (env : StartEnv) (sid j : Nat) (h : iterOK env j) :
    iterCase env sid j = (okCase env sid j, false) := by
  obtain ⟨h1, h2, h3, h4⟩ := h
  simp [iterCase, okCase, h1, h2, h3, h4]

theorem compileActs3_ok (u s g : CompileRes) (hu : u.etype ≠ "failed")
    (hs : s.etype ≠ "failed") (hg : g.etype ≠ "failed") :
    compileActs [("user", u), ("std", s), ("gen", g)] =
      ([Act.emit (Event.status (compMsg "user")),
        Act.emit (Event.compile u.etype ("user code: " ++ u.message)),
        Act.emit (Event.status (compMsg "std")),
        Act.emit (Event.compile s.etype ("std code: " ++ s.message)),
        Act.emit (Event.status (compMsg "gen")),
        Act.emit (Event.compile g.etype ("gen code: " ++ g.message))], true) := by
  simp [compileActs, hu, hs, hg]

theorem compileActs2_ok (u s : CompileRes) (hu : u.etype ≠ "failed")
    (hs : s.etype ≠ "failed") :
    compileActs [("user", u), ("std", s)] =
      ([Act.emit (Event.status (compMsg "user")),
        Act.emit (Event.compile u.etype ("user code: " ++ u.message)),
        Act.emit (Event.status (compMsg "std")),
        Act.emit (Event.compile s.etype ("std code: " ++ s.message))], true) := by
  simp [compileActs, hu, hs]

theorem diffLoopAux_ok_shape (env : StartEnv) (sid N : Nat) :
    ∀ rem i p, i + rem = N →
    (∀ j, i ≤ j → j < N → iterOK env j) →
    (∀ j, i ≤ j → j < N → env.stopHit j = false) →
    diffLoopAux env sid N rem i p =
      emitP p i ++ ((List.range' i rem).flatMap (okSeg env sid N) ++ [Act.emit Event.finish]) := by
  intro rem
  induction rem with
  | zero =>
    intro i p hiN _ _
    have hi : i = N := by omega
    subst hi
    simp [diffLoopAux, List.range']
  | succ rem ih =>
    intro i p hiN hok hstop
    have hiltN : i < N := by omega
    have hic : iterCase env sid i = (okCase env sid i, false) :=
      iterCase_ok env sid i (hok i (le_refl i) hiltN)
    have hst : env.stopHit i = false := hstop i (le_refl i) hiltN
    rw [diffLoopAux, hic, hst]
    rw [ih (i + 1) (some (okCase env sid i)) (by omega)
        (fun j hj hjN => hok j (by omega) hjN)
        (fun j hj hjN => hstop j (by omega) hjN)]
    rw [List.range'_succ, List.flatMap_cons]
    simp [okSeg, emitP]

theorem diffTrace_ok_shape (env : StartEnv) (sid N : Nat) (hc : compilesOK3 env)
    (hok : ∀ j, j < N → iterOK env j)
    (hstop : ∀ j, j < N → env.stopHit j = false) :
    diffTrace env sid N =
      Act.clearStop :: Act.deleteAll ::
        (compileOKActs env ++
          ((List.range' 0 N).flatMap (okSeg env sid N) ++ [Act.emit Event.finish])) := by
  obtain ⟨h1, h2, h3⟩ := hc
  rw [diffTrace]
  rw [compileActs3_ok env.cUser env.cStd env.cGen h1 h2 h3]
  rw [diffLoopAux_ok_shape env sid N N 0 none (by omega)
      (fun j _ hj => hok j hj) (fun j _ hj => hstop j hj)]
  simp [compileOKActs, emitP]

theorem diffLoopAux_stop_shape (env : StartEnv) (sid N : Nat) :
    ∀ rem i p k, i + rem = N → i ≤ k → k < N →
    (∀ j, i ≤ j → j ≤ k → iterOK env j) →
    (∀ j, i ≤ j → j < k → env.stopHit j = false) →
    env.stopHit k = true →
    diffLoopAux env sid N rem i p =
      emitP p i ++ ((List.range' i (k - i)).flatMap (okSeg env sid N) ++
        [Act.emit (Event.status (runMsg k N)), Act.persist (okCase env sid k),
         Act.emit Event.finish]) := by
  intro rem
  induction rem with
  | zero =>
    intro i p k h1 h2 h3 _ _ _
    exfalso
    omega
  | succ rem ih =>
    intro i p k h1 h2 h3 hok hstop hk
    have hic : iterCase env sid i = (okCase env sid i, false) :=
      iterCase_ok env sid i (hok i (le_refl i) h2)
    by_cases hik : i = k
    · subst hik
      rw [diffLoopAux, hic, hk]
      simp [Nat.sub_self, List.range']
    · have hiK : i < k := by omega
      have hsi : env.stopHit i = false := hstop i (le_refl i) hiK
      rw [diffLoopAux, hic, hsi]
      rw [ih (i + 1) (some (okCase env sid i)) k (by omega) (by omega) h3
          (fun j hj hjk => hok j (by omega) hjk)
          (fun j hj hjk => hstop j (by omega) hjk) hk]
      have hsub : k - i = (k - (i + 1)) + 1 := by omega
      rw [hsub, List.range'_succ, List.flatMap_cons]
      simp [okSeg, emitP]

theorem diffTrace_stop_shape (env : StartEnv) (sid N k : Nat)
    (hc : compilesOK3 env) (hkN : k < N)
    (hok : ∀ j, j ≤ k → iterOK env j)
    (hstop : ∀ j, j < k → env.stopHit j = false)
    (hk : env.stopHit k = true) :
    diffTrace env sid N =
      Act.clearStop :: Act.deleteAll ::
        (compileOKActs env ++
          ((List.range' 0 k).flatMap (okSeg env sid N) ++
            [Act.emit (Event.status (runMsg k N)), Act.persist (okCase env sid k),
             Act.emit Event.finish])) := by
  obtain ⟨h1, h2, h3⟩ := hc
  rw [diffTrace]
  rw [compileActs3_ok env.cUser env.cStd env.cGen h1 h2 h3]
  rw [diffLoopAux_stop_shape env sid N N 0 none k (by omega) (by omega) hkN
      (fun j _ hj => hok j hj) (fun j _ hj => hstop j hj) hk]
  simp [compileOKActs, emitP]

theorem compileActs_eap : ∀ (items : List (String × CompileRes)) (pend : List TC)
    (rest : List Act),
    emitsAfterPersist pend ((compileActs items).1 ++ rest) =
      emitsAfterPersist pend rest := by
  intro items
  induction items with
  | nil => intro pend rest; rfl
  | cons it t ih =>
    intro pend rest
    obtain ⟨s, r⟩ := it
    by_cases h : r.etype = "failed"
    · simp only [compileActs, h, if_pos, List.cons_append, List.nil_append,
        eap_status, eap_compile]
    · simp only [compileActs, h, if_neg, ite_false, List.append_assoc,
        List.cons_append, List.nil_append, eap_status, eap_compile]
      exact ih pend rest

theorem diffLoopAux_order (env : StartEnv) (sid N : Nat) :
    ∀ rem i p pend, (∀ tc, p = some tc → tc ∈ pend) →
    emitsAfterPersist pend (diffLoopAux env sid N rem i p) = true := by
  intro rem
  induction rem with
  | zero =>
    intro i p pend hp
    cases p with
    | none => rfl
    | some tc0 =>
      have h0 : tc0 ∈ pend := hp tc0 rfl
      simp [diffLoopAux, emitP, eap_testResult, eap_finish, eap_nil, h0]
  | succ rem ih =>
    intro i p pend hp
    rw [diffLoopAux]
    have core : ∀ tail : List Act,
        emitsAfterPersist ((iterCase env sid i).1 :: pend) tail = true →
        emitsAfterPersist pend
          ((emitP p i ++
            [Act.emit (Event.status (runMsg i N)), Act.persist (iterCase env sid i).1]) ++
            tail) = true := by
      intro tail htail
      cases p with
      | none =>
        simpa [emitP, eap_status, eap_persist] using htail
      | some tc0 =>
        have h0 : tc0 ∈ pend := hp tc0 rfl
        simpa [emitP, eap_testResult, eap_status, eap_persist, h0] using htail
    by_cases hb : (iterCase env sid i).2 = true
    · rw [if_pos hb]
      exact core _ (by
        simp [eap_testResult, eap_finish, eap_nil, List.mem_cons])
    · rw [if_neg hb]
      by_cases hs : env.stopHit i = true
      · rw [if_pos hs]
        exact core _ rfl
      · rw [if_neg hs]
        exact core _ (ih (i + 1) (some (iterCase env sid i).1)
          ((iterCase env sid i).1 :: pend)
          (fun tc htc => by
            injection htc with he
            rw [← he]
            exact List.mem_cons_self _ _))

theorem diffTrace_order (env : StartEnv) (sid N : Nat) :
    emitsAfterPersist [] (diffTrace env sid N) = true := by
  rw [diffTrace]
  rw [eap_clearStop, eap_deleteAll, compileActs_eap]
  by_cases h : (compileActs [("user", env.cUser), ("std", env.cStd), ("gen", env.cGen)]).2 = true
  · rw [if_pos h]
    exact diffLoopAux_order env sid N N 0 none [] (fun tc htc => by cases htc)
  · rw [if_neg h]
    rfl

theorem compileActs_no_delete : ∀ items : List (String × CompileRes),
    Act.deleteAll ∉ (compileActs items).1 := by
  intro items
  induction items with
  | nil => simp [compileActs]
  | cons it t ih =>
    obtain ⟨s, r⟩ := it
    by_cases h : r.etype = "failed" <;> simp [compileActs, h, ih]

theorem rerunLoop_no_delete (env : RerunEnv) (total : Nat) :
    ∀ (cases : List TC) (i : Nat), Act.deleteAll ∉ rerunLoop env total i cases := by
  intro cases
  induction cases with
  | nil => intro i; simp [rerunLoop]
  | cons tc rest ih =>
    intro i
    by_cases h : env.stopHit i = true <;> simp [rerunLoop, h, ih]

theorem rerunLoop_stop_shape (env : RerunEnv) (total : Nat) :
    ∀ (front : List TC) (i : Nat) (ck : TC) (rest : List TC),
    (∀ j, i ≤ j → j < i + front.length → env.stopHit j = false) →
    env.stopHit (i + front.length) = true →
    rerunLoop env total i (front ++ ck :: rest) =
      ((List.range' i front.length).zip front).flatMap
          (fun q => rerunSeg env total q.1 q.2) ++
        (rerunSeg env total (i + front.length) ck ++ [Act.emit Event.finish]) := by
  intro front
  induction front with
  | nil =>
    intro i ck rest _ hk
    have hk2 : env.stopHit i = true := by simpa using hk
    simp [rerunLoop, rerunSeg, hk2, List.range']
  | cons f0 fr ih =>
    intro i ck rest hstop hk
    have hlen : (f0 :: fr).length = fr.length + 1 := List.length_cons f0 fr
    have hsi : env.stopHit i = false := hstop i (le_refl i) (by rw [hlen]; omega)
    have hk2 : env.stopHit (i + 1 + fr.length) = true := by
      rw [hlen] at hk
      have harith : i + (fr.length + 1) = i + 1 + fr.length := by omega
      rw [harith] at hk
      exact hk
    rw [List.cons_append, rerunLoop, hsi]
    rw [ih (i + 1) ck rest
        (fun j hj hjk => hstop j (by omega) (by rw [hlen]; omega)) hk2]
    rw [hlen, List.range'_succ, List.zip_cons_cons, List.flatMap_cons]
    have harith : i + (fr.length + 1) = i + 1 + fr.length := by omega
    rw [harith]
    simp [rerunSeg]

theorem rerunTrace_stop_shape (env : RerunEnv) (front : List TC) (ck : TC)
    (rest : List TC) (hu : env.cUser.etype ≠ "failed") (hs : env.cStd.etype ≠ "failed")
    (hstop : ∀ j, j < front.length → env.stopHit j = false)
    (hk : env.stopHit front.length = true) :
    rerunTrace env (front ++ ck :: rest) =
      Act.clearStop ::
        (compileOK2Acts env ++
          (((List.range' 0 front.length).zip front).flatMap
              (fun q => rerunSeg env (front ++ ck :: rest).length q.1 q.2) ++
            (rerunSeg env (front ++ ck :: rest).length front.length ck ++
              [Act.emit Event.finish]))) := by
  rw [rerunTrace]
  rw [compileActs2_ok env.cUser env.cStd hu hs]
  rw [rerunLoop_stop_shape env (front ++ ck :: rest).length front 0 ck rest
      (fun j _ hj => hstop j (by omega)) (by rw [Nat.zero_add]; exact hk)]
  simp [compileOK2Acts]

/-- C1: a `start(session, N, …)` run that completes without compile failure,
without any non-OK test and without a stop request persists exactly `N`
TestCases and emits exactly `N` `test_result` events, every one of them
carrying a case with status OK. -/
theorem claim_c1 : ∀ (env : StartEnv) (sid N : Nat),
    compilesOK3 env →
    (∀ j, j < N → iterOK env j) →
    (∀ j, j < N → env.stopHit j = false) →
    persistsOf (diffTrace env sid N) = (List.range' 0 N).map (okCase env sid) ∧
    (persistsOf (diffTrace env sid N)).length = N ∧
    (∀ tc ∈ persistsOf (diffTrace env sid N), tc.status = "OK") ∧
    testResultsOf (diffTrace env sid N) =
      (List.range' 0 N).map (fun j => (j + 1, okCase env sid j)) ∧
    (testResultsOf (diffTrace env sid N)).length = N ∧
    (∀ q ∈ testResultsOf (diffTrace env sid N), q.2.status = "OK") := by
  intro env sid N hc hok hstop
  have hT := diffTrace_ok_shape env sid N hc hok hstop
  have hP : persistsOf (diffTrace env sid N) =
      (List.range' 0 N).map (okCase env sid) := by
    rw [hT, pOf_clearStop, pOf_deleteAll, persistsOf_append, persistsOf_append,
        persistsOf_okSeg_flatMap]
    simp [compileOKActs, pOf_emit, persistsOf]
  have hR : testResultsOf (diffTrace env sid N) =
      (List.range' 0 N).map (fun j => (j + 1, okCase env sid j)) := by
    rw [hT, tROf_clearStop, tROf_deleteAll, testResultsOf_append,
        testResultsOf_append, testResultsOf_okSeg_flatMap]
    simp [compileOKActs, tROf_status, tROf_compile, tROf_finish, testResultsOf]
  refine ⟨hP, ?_, ?_, hR, ?_, ?_⟩
  · rw [hP]; simp
  · rw [hP]
    intro tc htc
    rw [List.mem_map] at htc
    obtain ⟨j, _, hje⟩ := htc
    rw [← hje]
    rfl
  · rw [hR]; simp
  · rw [hR]
    intro q hq
    rw [List.mem_map] at hq
    obtain ⟨j, _, hje⟩ := hq
    rw [← hje]
    rfl

/-- Witness for C1: the all-OK two-test run in `envA`. -/
theorem claim_c1_witness :
    persistsOf (diffTrace envA 7 2) = (List.range' 0 2).map (okCase envA 7) ∧
    (persistsOf (diffTrace envA 7 2)).length = 2 ∧
    (∀ tc ∈ persistsOf (diffTrace envA 7 2), tc.status = "OK") ∧
    testResultsOf (diffTrace envA 7 2) =
      (List.range' 0 2).map (fun j => (j + 1, okCase envA 7 j)) ∧
    (testResultsOf (diffTrace envA 7 2)).length = 2 ∧
    (∀ q ∈ testResultsOf (diffTrace envA 7 2), q.2.status = "OK") :=
  claim_c1 envA 7 2 ⟨by decide, by decide, by decide⟩
    (fun _ _ => ⟨rfl, rfl, rfl, rfl⟩) (fun _ _ => rfl)

/-- C2: in an all-OK run the whole trace is exactly the strict program-order
sequence — compile status/result pairs for user, std, gen, then per test `k`
the `status` event, the persist, and the `test_result` for test `k` before
the `status` of test `k+1` — and in every run whatsoever each emitted
`test_result` carries a case persisted strictly earlier in the trace. -/
theorem claim_c2 :
    (∀ (env : StartEnv) (sid N : Nat), compilesOK3 env →
      (∀ j, j < N → iterOK env j) → (∀ j, j < N → env.stopHit j = false) →
      diffTrace env sid N =
        Act.clearStop :: Act.deleteAll ::
          (compileOKActs env ++
            ((List.range' 0 N).flatMap (okSeg env sid N) ++ [Act.emit Event.finish]))) ∧
    (∀ (env : StartEnv) (sid N : Nat),
      emitsAfterPersist [] (diffTrace env sid N) = true) :=
  ⟨diffTrace_ok_shape, diffTrace_order⟩

/-- Witness for C2: the all-OK two-test run in `envA`. -/
theorem claim_c2_witness :
    diffTrace envA 7 2 =
      Act.clearStop :: Act.deleteAll ::
        (compileOKActs envA ++
          ((List.range' 0 2).flatMap (okSeg envA 7 2) ++ [Act.emit Event.finish])) ∧
    emitsAfterPersist [] (diffTrace envA 7 2) = true :=
  ⟨claim_c2.1 envA 7 2 ⟨by decide, by decide, by decide⟩
      (fun _ _ => ⟨rfl, rfl, rfl, rfl⟩) (fun _ _ => rfl),
   claim_c2.2 envA 7 2⟩

/-- C3 counterexample: in `start`, a stop observed at boundary 0 of a
two-test run leaves the in-flight case persisted but emits no `test_result`
at all before the terminal `finish` — refuting the claim that the in-flight
case is emitted. -/
theorem claim_c3_cex :
    envS.stopHit 0 = true ∧
    persistsOf (diffTrace envS 3 2) = [okCase envS 3 0] ∧
    testResultsOf (diffTrace envS 3 2) = [] ∧
    (diffTrace envS 3 2).getLast? = some (Act.emit Event.finish) := by
  refine ⟨rfl, ?_, ?_, ?_⟩ <;> decide

/-- C3 (amended): a stop observed at iteration boundary `k` lets the
in-flight case complete and be persisted, and the run terminates at that
boundary (hence no later than iteration `k+1`) with a final `finish`; in
`start` the in-flight case's `test_result` is *not* emitted, while in
`rerun` it is emitted between its persist and the `finish`. -/
theorem claim_c3_amended :
    (∀ (env : StartEnv) (sid N k : Nat), compilesOK3 env → k < N →
      (∀ j, j ≤ k → iterOK env j) → (∀ j, j < k → env.stopHit j = false) →
      env.stopHit k = true →
      diffTrace env sid N =
        Act.clearStop :: Act.deleteAll ::
          (compileOKActs env ++
            ((List.range' 0 k).flatMap (okSeg env sid N) ++
              [Act.emit (Event.status (runMsg k N)), Act.persist (okCase env sid k),
               Act.emit Event.finish]))) ∧
    (∀ (env : RerunEnv) (front : List TC) (ck : TC) (rest : List TC),
      env.cUser.etype ≠ "failed" → env.cStd.etype ≠ "failed" →
      (∀ j, j < front.length → env.stopHit j = false) →
      env.stopHit front.length = true →
      rerunTrace env (front ++ ck :: rest) =
        Act.clearStop ::
          (compileOK2Acts env ++
            (((List.range' 0 front.length).zip front).flatMap
                (fun q => rerunSeg env (front ++ ck :: rest).length q.1 q.2) ++
              (rerunSeg env (front ++ ck :: rest).length front.length ck ++
                [Act.emit Event.finish])))) :=
  ⟨fun env sid N k hc hkN hok hstop hk =>
      diffTrace_stop_shape env sid N k hc hkN hok hstop hk,
   fun env front ck rest hu hs hstop hk =>
      rerunTrace_stop_shape env front ck rest hu hs hstop hk⟩

/-- Witness for C3 (amended): stop at boundary 0 in `envS` (start) and in
`envRS` (rerun, with one stored case in flight). -/
theorem claim_c3_amended_witness :
    diffTrace envS 3 2 =
      Act.clearStop :: Act.deleteAll ::
        (compileOKActs envS ++
          ((List.range' 0 0).flatMap (okSeg envS 3 2) ++
            [Act.emit (Event.status (runMsg 0 2)), Act.persist (okCase envS 3 0),
             Act.emit Event.finish])) ∧
    rerunTrace envRS (([] : List TC) ++ tcA :: [tcB]) =
      Act.clearStop ::
        (compileOK2Acts envRS ++
          (((List.range' 0 ([] : List TC).length).zip ([] : List TC)).flatMap
              (fun q => rerunSeg envRS (([] : List TC) ++ tcA :: [tcB]).length q.1 q.2) ++
            (rerunSeg envRS (([] : List TC) ++ tcA :: [tcB]).length
                ([] : List TC).length tcA ++
              [Act.emit Event.finish]))) :=
  ⟨claim_c3_amended.1 envS 3 2 0 ⟨by decide, by decide, by decide⟩ (by omega)
      (fun _ _ => ⟨rfl, rfl, rfl, rfl⟩) (fun j hj => by omega) rfl,
   claim_c3_amended.2 envRS [] tcA [tcB] (by decide) (by decide)
      (fun j hj => by simp at hj) rfl⟩

/-- C5 (code bug): in `rerun`, a non-OK user verdict does not survive to the
persisted record and does not abort the run — the `"User <kind>"` assignment
is unconditionally overwritten by the `"Std <kind>"` assignment and then by
the WA/OK comparison result, and the loop continues to the next test. -/
theorem claim_c5_bug :
    (envR.user 0).rtype = "RE" ∧
    (persistsOf (rerunTrace envR [tcA, tcB])).map TC.status = ["OK", "OK"] ∧
    Act.emit (Event.status (runMsg 1 2)) ∈ rerunTrace envR [tcA, tcB] ∧
    "User RE" ∉ (persistsOf (rerunTrace envR [tcA, tcB])).map TC.status :=
  ⟨rfl, by decide, by decide, by decide⟩

/-- C6: every `start` run clears the stop flag and deletes the session's
prior TestCases as its first two actions, before any event is emitted,
whereas `rerun` performs no deletion at all (its first action is only the
stop-flag clear). -/
theorem claim_c6 :
    (∀ (env : StartEnv) (sid N : Nat), ∃ rest,
      diffTrace env sid N = Act.clearStop :: Act.deleteAll :: rest) ∧
    (∀ (env : RerunEnv) (cases : List TC), Act.deleteAll ∉ rerunTrace env cases) ∧
    (∀ (env : RerunEnv) (cases : List TC), ∃ rest,
      rerunTrace env cases = Act.clearStop :: rest) := by
  refine ⟨?_, ?_, ?_⟩
  · intro env sid N
    exact ⟨_, rfl⟩
  · intro env cases
    rw [rerunTrace]
    by_cases h : (compileActs [("user", env.cUser), ("std", env.cStd)]).2 = true
    · rw [if_pos h]
      intro hmem
      rcases List.mem_cons.mp hmem with he | hm
      · exact Act.noConfusion he
      · rcases List.mem_append.mp hm with h1 | h2
        · exact compileActs_no_delete _ h1
        · exact rerunLoop_no_delete env cases.length cases 0 h2
    · rw [if_neg h]
      intro hmem
      rcases List.mem_cons.mp hmem with he | hm
      · exact Act.noConfusion he
      · rcases List.mem_append.mp hm with h1 | h2
        · exact compileActs_no_delete _ h1
        · simp at h2
  · intro env cases
    exact ⟨_, rfl⟩

/-- C7: `start` compiles user, std and gen code in that order with a
`Compiling X code` status before each; on the first compile failure it emits
the `failed` event whose message is the compiler's message prefixed with
`<X> code: ` and terminates at once, with no `test_result` events and no
persisted test cases. -/
theorem claim_c7 :
    (∀ (env : StartEnv) (sid N : Nat), compilesOK3 env → ∃ rest,
      diffTrace env sid N =
        Act.clearStop :: Act.deleteAll :: (compileOKActs env ++ rest)) ∧
    (∀ (env : StartEnv) (sid N : Nat), env.cUser.etype = "failed" →
      diffTrace env sid N =
        [Act.clearStop, Act.deleteAll, Act.emit (Event.status (compMsg "user")),
         Act.emit (Event.compile "failed" ("user code: " ++ env.cUser.message))] ∧
      persistsOf (diffTrace env sid N) = [] ∧
      testResultsOf (diffTrace env sid N) = []) ∧
    (∀ (env : StartEnv) (sid N : Nat), env.cUser.etype ≠ "failed" →
      env.cStd.etype = "failed" →
      diffTrace env sid N =
        [Act.clearStop, Act.deleteAll, Act.emit (Event.status (compMsg "user")),
         Act.emit (Event.compile env.cUser.etype ("user code: " ++ env.cUser.message)),
         Act.emit (Event.status (compMsg "std")),
         Act.emit (Event.compile "failed" ("std code: " ++ env.cStd.message))] ∧
      persistsOf (diffTrace env sid N) = [] ∧
      testResultsOf (diffTrace env sid N) = []) ∧
    (∀ (env : StartEnv) (sid N : Nat), env.cUser.etype ≠ "failed" →
      env.cStd.etype ≠ "failed" → env.cGen.etype = "failed" →
      diffTrace env sid N =
        [Act.clearStop, Act.deleteAll, Act.emit (Event.status (compMsg "user")),
         Act.emit (Event.compile env.cUser.etype ("user code: " ++ env.cUser.message)),
         Act.emit (Event.status (compMsg "std")),
         Act.emit (Event.compile env.cStd.etype ("std code: " ++ env.cStd.message)),
         Act.emit (Event.status (compMsg "gen")),
         Act.emit (Event.compile "failed" ("gen code: " ++ env.cGen.message))] ∧
      persistsOf (diffTrace env sid N) = [] ∧
      testResultsOf (diffTrace env sid N) = []) := by
  refine ⟨?_, ?_, ?_, ?_⟩
  · intro env sid N hc
    obtain ⟨h1, h2, h3⟩ := hc
    refine ⟨diffLoopAux env sid N N 0 none, ?_⟩
    rw [diffTrace, compileActs3_ok env.cUser env.cStd env.cGen h1 h2 h3]
    rfl
  · intro env sid N h
    have hT : diffTrace env sid N =
        [Act.clearStop, Act.deleteAll, Act.emit (Event.status (compMsg "user")),
         Act.emit (Event.compile "failed" ("user code: " ++ env.cUser.message))] := by
      rw [diffTrace]
      simp [compileActs, h]
    exact ⟨hT, by rw [hT]; rfl, by rw [hT]; rfl⟩
  · intro env sid N h1 h2
    have hT : diffTrace env sid N =
        [Act.clearStop, Act.deleteAll, Act.emit (Event.status (compMsg "user")),
         Act.emit (Event.compile env.cUser.etype ("user code: " ++ env.cUser.message)),
         Act.emit (Event.status (compMsg "std")),
         Act.emit (Event.compile "failed" ("std code: " ++ env.cStd.message))] := by
      rw [diffTrace]
      simp [compileActs, h1, h2]
    exact ⟨hT, by rw [hT]; rfl, by rw [hT]; rfl⟩
  · intro env sid N h1 h2 h3
    have hT : diffTrace env sid N =
        [Act.clearStop, Act.deleteAll, Act.emit (Event.status (compMsg "user")),
         Act.emit (Event.compile env.cUser.etype ("user code: " ++ env.cUser.message)),
         Act.emit (Event.status (compMsg "std")),
         Act.emit (Event.compile env.cStd.etype ("std code: " ++ env.cStd.message)),
         Act.emit (Event.status (compMsg "gen")),
         Act.emit (Event.compile "failed" ("gen code: " ++ env.cGen.message))] := by
      rw [diffTrace]
      simp [compileActs, h1, h2, h3]
    exact ⟨hT, by rw [hT]; rfl, by rw [hT]; rfl⟩

/-- Witness for C7: the all-OK compile phase of `envA` and the three
single-failure environments `envFU`, `envFS`, `envFG`. -/
theorem claim_c7_witness :
    (∃ rest, diffTrace envA 7 2 =
      Act.clearStop :: Act.deleteAll :: (compileOKActs envA ++ rest)) ∧
    (diffTrace envFU 7 2 =
      [Act.clearStop, Act.deleteAll, Act.emit (Event.status (compMsg "user")),
       Act.emit (Event.compile "failed" ("user code: " ++ envFU.cUser.message))] ∧
     persistsOf (diffTrace envFU 7 2) = [] ∧
     testResultsOf (diffTrace envFU 7 2) = []) ∧
    (diffTrace envFS 7 2 =
      [Act.clearStop, Act.deleteAll, Act.emit (Event.status (compMsg "user")),
       Act.emit (Event.compile envFS.cUser.etype ("user code: " ++ envFS.cUser.message)),
       Act.emit (Event.status (compMsg "std")),
       Act.emit (Event.compile "failed" ("std code: " ++ envFS.cStd.message))] ∧
     persistsOf (diffTrace envFS 7 2) = [] ∧
     testResultsOf (diffTrace envFS 7 2) = []) ∧
    (diffTrace envFG 7 2 =
      [Act.clearStop, Act.deleteAll, Act.emit (Event.status (compMsg "user")),
       Act.emit (Event.compile envFG.cUser.etype ("user code: " ++ envFG.cUser.message)),
       Act.emit (Event.status (compMsg "std")),
       Act.emit (Event.compile envFG.cStd.etype ("std code: " ++ envFG.cStd.message)),
       Act.emit (Event.status (compMsg "gen")),
       Act.emit (Event.compile "failed" ("gen code: " ++ envFG.cGen.message))] ∧
     persistsOf (diffTrace envFG 7 2) = [] ∧
     testResultsOf (diffTrace envFG 7 2) = []) :=
  ⟨claim_c7.1 envA 7 2 ⟨by decide, by decide, by decide⟩,
   claim_c7.2.1 envFU 7 2 rfl,
   claim_c7.2.2.1 envFS 7 2 (by decide) rfl,
   claim_c7.2.2.2 envFG 7 2 (by decide) (by decide) rfl⟩

/-- C10: every provided max_tests value outside [1, 1000] — including every
value below 1 — is replaced by 1000 (not clamped to 1), the request is never
rejected, and the run always proceeds with a budget inside [1, 1000]. -/
theorem claim_c10 : ∀ n : Int,
    ((n < 1 ∨ 1000 < n) → getMaxTests (some n) = 1000) ∧
    (n < 1 → getMaxTests (some n) = 1000) ∧
    (1 ≤ getMaxTests (some n) ∧ getMaxTests (some n) ≤ 1000) := by
  intro n
  simp only [getMaxTests, Option.getD_some]
  constructor
  · intro h
    rw [if_pos]
    omega
  constructor
  · intro h
    rw [if_pos]
    left; exact h
  · by_cases h : n < 1 ∨ n > 1000
    · rw [if_pos h]; omega
    · rw [if_neg h]; omega

/-- Witness for C10 at the concrete out-of-range inputs -7 and 2000. -/
theorem claim_c10_witness :
    getMaxTests (some (-7)) = 1000 ∧ getMaxTests (some 2000) = 1000 :=
  ⟨(claim_c10 (-7)).2.1 (by decide), (claim_c10 2000).1 (Or.inr (by decide))⟩

/-- C8 (code bug): the record produced by `sse_response` is
`event: <type>\ndata: <json>\n` — `'\n'.join` does not terminate the final
empty element with a newline, so the record ends in a single newline rather
than the blank line the claim (and the code's own comment on the empty
element) requires; the timestamp field is added to the payload as claimed. -/
theorem claim_c8_bug :
    sse_response "status" [("status", "x")] none "2024-01-01T00:00:00" =
      "event: status\ndata: \x7b\x22status\x22: \x22x\x22, \x22timestamp\x22: \x222024-01-01T00:00:00\x22\x7d\n" ∧
    endsBlankLine (sse_response "status" [("status", "x")] none "2024-01-01T00:00:00") = false ∧
    endsBlankLine "event: status\ndata: \x7b\x7d\n\n" = true ∧
    pyDictSet [("status", "x")] "timestamp" "2024-01-01T00:00:00" =
      [("status", "x"), ("timestamp", "2024-01-01T00:00:00")] :=
  ⟨rfl, by decide, by decide, rfl⟩

/-- C9 counterexample: under the spec's own §4.2 derivation (the sandbox
layer is absent from src/), a child that exits normally with code 1 gets
verdict OK, refuting `verdict = OK ⇔ exited normally ∧ exit_code = 0`;
the §4.3 compiler mapping (`compile_outcome`) relies on exactly such
outcomes. -/
theorem claim_c9_cex :
    verdict_kind (ExitStatus.exited 1) = "OK" ∧
    ExitStatus.exited 1 ≠ ExitStatus.exited 0 ∧
    compile_outcome (verdict_kind (ExitStatus.exited 1)) 1 = "Compile Error" := by
  decide

/-- C9 (amended): a sandbox outcome's verdict is OK iff the child exited
normally (the exit code is carried in the outcome and checked by callers
such as the Compiler Driver), and every time/memory counter reported by
`_run_command` is nonnegative, in all three of its branches. -/
theorem claim_c9_amended :
    (∀ st : ExitStatus, verdict_kind st = "OK" ↔ ∃ c, st = ExitStatus.exited c) ∧
    (∀ mt mm s e : Rat, ∀ out err : String, ∀ rc : Int, 0 ≤ mt → 0 ≤ mm → s ≤ e →
      0 ≤ (run_command_normal mt mm s e out err rc).time_cost ∧
      0 ≤ (run_command_normal mt mm s e out err rc).memory_cost) ∧
    (∀ mt : Rat, 0 ≤ mt →
      0 ≤ (run_command_timeout mt).time_cost ∧ 0 ≤ (run_command_timeout mt).memory_cost) ∧
    (∀ msg : String,
      0 ≤ (run_command_error msg).time_cost ∧ 0 ≤ (run_command_error msg).memory_cost) := by
  refine ⟨?_, ?_, ?_, ?_⟩
  · intro st
    cases st with
    | exited c => exact ⟨fun _ => ⟨c, rfl⟩, fun _ => rfl⟩
    | signaled s =>
      constructor
      · intro h
        exfalso
        simp only [verdict_kind] at h
        split at h
        · exact absurd h (by decide)
        · split at h
          · exact absurd h (by decide)
          · split at h
            · exact absurd h (by decide)
            · exact absurd h (by decide)
      · rintro ⟨c, hc⟩
        exact ExitStatus.noConfusion hc
    | unknown =>
      constructor
      · intro h
        exact absurd h (by decide)
      · rintro ⟨c, hc⟩
        exact ExitStatus.noConfusion hc
  · intro mt mm s e out err rc hmt hmm0 hse
    constructor
    · show 0 ≤ min ((e - s) * 1000) (mt * 1000)
      exact le_min (mul_nonneg (sub_nonneg.mpr hse) (by norm_num))
        (mul_nonneg hmt (by norm_num))
    · show 0 ≤ min (estimate_memory out.length err.length) mm
      refine le_min ?_ hmm0
      unfold estimate_memory
      positivity
  · intro mt hmt
    exact ⟨mul_nonneg hmt (by norm_num), le_refl 0⟩
  · intro msg
    exact ⟨le_refl 0, le_refl 0⟩

/-- Witness for C9 (amended) at concrete outcomes and counter inputs. -/
theorem claim_c9_amended_witness :
    (verdict_kind (ExitStatus.exited 0) = "OK" ↔ ∃ c, ExitStatus.exited 0 = ExitStatus.exited c) ∧
    (0 ≤ (run_command_normal 5 256 1 2 "a" "bb" 0).time_cost ∧
     0 ≤ (run_command_normal 5 256 1 2 "a" "bb" 0).memory_cost) ∧
    (0 ≤ (run_command_timeout 5).time_cost ∧ 0 ≤ (run_command_timeout 5).memory_cost) ∧
    (0 ≤ (run_command_error "boom").time_cost ∧ 0 ≤ (run_command_error "boom").memory_cost) :=
  ⟨claim_c9_amended.1 (ExitStatus.exited 0),
   claim_c9_amended.2.1 5 256 1 2 "a" "bb" 0 (by norm_num) (by norm_num) (by norm_num),
   claim_c9_amended.2.2.1 5 (by norm_num),
   claim_c9_amended.2.2.2 "boom"⟩

/-- C4 counterexample: a run in which generator, user and std all have OK
verdicts, the default `wcmp` checker of the claim would accept (its token
streams agree, exit 0 → OK), yet the code persists status WA — the judge
step compares the normalized texts directly instead of invoking any
checker. -/
theorem claim_c4_cex :
    (envW.gen 0).rtype = "OK" ∧ (envW.user 0).rtype = "OK" ∧ (envW.std 0).rtype = "OK" ∧
    checker_status (wcmpExit "1 2" "1\n2") "OK" = "OK" ∧
    (persistsOf (diffTrace envW 9 1)).map TC.status = ["WA"] :=
  ⟨rfl, rfl, rfl, rfl, rfl⟩

/-- C4 (amended): when generator, user and std verdicts are all OK, the
judge step determines the status by comparing the two outputs directly
after per-line trailing-whitespace normalization — OK iff the normalized
texts are equal, WA (with a loop break) otherwise; no external checker is
involved. -/
theorem claim_c4_amended : ∀ (env : StartEnv) (sid i : Nat),
    (env.gen i).rtype = "OK" → (env.user i).rtype = "OK" → (env.std i).rtype = "OK" →
    (iterCase env sid i).1.status =
      (if normalizeOut (env.user i).output = normalizeOut (env.std i).output
       then "OK" else "WA") ∧
    ((iterCase env sid i).2 = false ↔
      normalizeOut (env.user i).output = normalizeOut (env.std i).output) := by
  intro env sid i h1 h2 h3
  by_cases h : normalizeOut (env.user i).output = normalizeOut (env.std i).output
  · simp [iterCase, h1, h2, h3, h]
  · simp [iterCase, h1, h2, h3, h]

/-- Witness for C4 (amended) at the concrete environment `envW`. -/
theorem claim_c4_amended_witness :
    (iterCase envW 9 0).1.status =
      (if normalizeOut (envW.user 0).output = normalizeOut (envW.std 0).output
       then "OK" else "WA") ∧
    ((iterCase envW 9 0).2 = false ↔
      normalizeOut (envW.user 0).output = normalizeOut (envW.std 0).output) :=
  claim_c4_amended envW 9 0 rfl rfl rfl

end Codediff
